import Mathlib

set_option maxRecDepth 100000

/-!
Verification of the trivia-game server core (src/server.js).

The server is shallowly embedded as pure Lean functions over an explicit
state type.  JavaScript `Map`s become association lists with the exact
`get`/`set`/`delete`/`has` semantics (set replaces the value of an existing
key in place, otherwise appends).  JS numbers that the program only ever
uses as integers are modelled as `Int`/`Nat`; the coercion `Number(x)`
applied to an answer payload is modelled as `Option Int`, `none` standing
for `NaN` (a `NaN` compares unequal to every integer, exactly as `===`
does).  `Math.random()`-driven choices are modelled by an explicit choice
function `rand : Nat → Nat`; the shuffle uses `rand i % (i + 1)`, which
ranges over exactly the values `Math.floor(Math.random() * (i + 1))` can
take.  Socket liveness (`io.sockets.sockets.has`) is modelled by an
explicit list of live socket ids maintained by connect/disconnect events.
-/

namespace Trivia

/-- JS Map lookup (`Map.prototype.get`) over an association list. -/
def mGet {α : Type} : List (String × α) → String → Option α
  | [], _ => none
  | (k', v) :: t, k => if k' = k then some v else mGet t k

/-- JS Map membership (`Map.prototype.has`). -/
def mHas {α : Type} (m : List (String × α)) (k : String) : Bool :=
  (mGet m k).isSome

/-- JS Map update (`Map.prototype.set`): replace in place or append. -/
def mSet {α : Type} : List (String × α) → String → α → List (String × α)
  | [], k, v => [(k, v)]
  | (k', v') :: t, k, v =>
      if k' = k then (k, v) :: t else (k', v') :: mSet t k v

/-- JS Map removal (`Map.prototype.delete`). -/
def mDel {α : Type} (m : List (String × α)) (k : String) : List (String × α) :=
  m.filter (fun e => e.1 ≠ k)

/-- Phase of the game loop (`currentPhase` in server.js). -/
inductive Phase
  | idle
  | question
  | reveal
deriving DecidableEq

/-- Which single-shot timer is currently armed (`nextTimer`): the startup /
idle-gap timer runs `startNextQuestion`, the question timer runs
`endQuestionAndReveal`, the reveal timer runs the reveal-to-idle callback. -/
inductive TimerKind
  | start
  | reveal
  | toIdle
deriving DecidableEq

/-- The `lastAnswer` snapshot stored on a player record. -/
structure LastAnswer where
  questionId : String
  correct : Bool
  pointsAwarded : Int
deriving DecidableEq

/-- A player record (value type of `playerIdToPlayer`). -/
structure Player where
  id : String
  name : String
  score : Int
  connected : Bool
  lockedUntilQuestionId : Option String
  lastAnswer : Option LastAnswer
deriving DecidableEq

/-- A catalog question record. -/
structure Question where
  id : String
  text : String
  choices : List String
  correctIndex : Int
deriving DecidableEq

/-- A round-ledger entry (value type of `submissionsThisRound`). -/
structure Submission where
  choiceIndex : Option Int
  correct : Bool
  points : Int
  answeredAt : Nat
deriving DecidableEq

/-- The module-level mutable state of server.js: the two registry maps, the
game-loop variables, the round ledger, and the shuffle-order control. -/
structure GameState where
  questions : List Question
  playerIdToPlayer : List (String × Player)
  playerNameToId : List (String × String)
  currentPhase : Phase
  currentQuestion : Option Question
  currentQuestionIndex : Option Nat
  questionStartedAt : Nat
  questionEndsAt : Nat
  submissionsThisRound : List (String × Submission)
  shuffledOrder : List Nat
  shuffledCursor : Int
  nextTimer : Option TimerKind
deriving DecidableEq

/-- QUESTION_DURATION_MS constant (10s to answer). -/
def QUESTION_DURATION_MS : Nat := 10000

/-- `String.prototype.trim`: strip leading and trailing whitespace
(written on the character list so that it evaluates by reduction). -/
def jsTrim (raw : String) : String :=
  String.mk
    (((raw.data.dropWhile Char.isWhitespace).reverse.dropWhile
        Char.isWhitespace).reverse)

/-- sanitizeName: coerce to string, trim, cap at 20 chars, default "Player". -/
def sanitizeName (raw : String) : String :=
  let base := String.mk ((jsTrim raw).data.take 20)
  if base = "" then "Player" else base

/-- JS array indexing with a possibly negative index: `a[i]` is `undefined`
for a negative or out-of-range index. -/
def listGetInt (l : List Nat) (i : Int) : Option Nat :=
  if i < 0 then none else l.get? i.toNat

/-- One swap step of fisherYatesShuffle: exchange positions `i` and `j`
(identity when either index is out of range, which the loop never hits). -/
def listSwap (l : List Nat) (i j : Nat) : List Nat :=
  match l.get? i, l.get? j with
  | some a, some b => (l.set i b).set j a
  | _, _ => l

/-- The descending loop of fisherYatesShuffle: at index `i ≥ 1` swap `a[i]`
with `a[j]` where `j = Math.floor(Math.random() * (i + 1))`, here modelled
as `rand i % (i + 1)`. -/
def fyLoop (rand : Nat → Nat) : Nat → List Nat → List Nat
  | 0, l => l
  | i + 1, l => fyLoop rand i (listSwap l (i + 1) (rand (i + 1) % (i + 2)))

/-- fisherYatesShuffle: in-place unbiased shuffle of an index array. -/
def fisherYatesShuffle (l : List Nat) (rand : Nat → Nat) : List Nat :=
  fyLoop rand (l.length - 1) l

/-- buildShuffledOrder: a fresh shuffled permutation of `0 .. count-1`
(the new `shuffledOrder`; the caller resets `shuffledCursor` to -1). -/
def buildShuffledOrder (count : Nat) (rand : Nat → Nat) : List Nat :=
  fisherYatesShuffle (List.range count) rand

/-- The rebuild condition of startNextQuestion (lines 207-211): rebuild when
the order length mismatches the catalog size or the cursor is at (or past)
the last slot.  (`shuffledOrder` is always an array in the model, so the
`!Array.isArray` disjunct is always false.) -/
def needsRebuild (n : Nat) (order : List Nat) (cursor : Int) : Bool :=
  order.length ≠ n || cursor ≥ (order.length : Int) - 1

/-- Lines 207-213 of startNextQuestion: possibly rebuild the order, then
advance the cursor by one.  Returns the new `(shuffledOrder, shuffledCursor)`;
the emitted catalog index is `listGetInt order cursor` on the result. -/
def drawStep (n : Nat) (rand : Nat → Nat) (order : List Nat) (cursor : Int) :
    List Nat × Int :=
  let oc := if needsRebuild n order cursor
            then (buildShuffledOrder n rand, (-1 : Int))
            else (order, cursor)
  (oc.1, oc.2 + 1)

/-- Iterate `drawStep`, one choice function per draw, recording the emitted
catalog index (`shuffledOrder[shuffledCursor]`) of each draw. -/
def runDraws (n : Nat) : List (Nat → Nat) → List Nat × Int →
    (List Nat × Int) × List (Option Nat)
  | [], s => (s, [])
  | r :: rs, s =>
      let s' := drawStep n r s.1 s.2
      let rest := runDraws n rs s'
      (rest.1, listGetInt s'.1 s'.2 :: rest.2)

/-- startNextQuestion: empty catalog degrades to idle; otherwise draw the
next shuffled index, load the question, reset the round ledger, arm the
question timer. -/
def startNextQuestion (g : GameState) (rand : Nat → Nat) (t : Nat) : GameState :=
  if g.questions.length = 0 then
    { g with currentPhase := .idle, nextTimer := none }
  else
    let oc := drawStep g.questions.length rand g.shuffledOrder g.shuffledCursor
    let idx := listGetInt oc.1 oc.2
    { g with
        shuffledOrder := oc.1
        shuffledCursor := oc.2
        currentQuestionIndex := idx
        currentPhase := .question
        currentQuestion := idx.bind (fun i => g.questions.get? i)
        questionStartedAt := t
        questionEndsAt := t + QUESTION_DURATION_MS
        submissionsThisRound := []
        nextTimer := some .reveal }

/-- endQuestionAndReveal: enter the reveal phase and arm the reveal timer. -/
def endQuestionAndReveal (g : GameState) : GameState :=
  { g with currentPhase := .reveal, nextTimer := some .toIdle }

/-- The reveal-timer callback body: enter idle and arm the idle-gap timer
that will run startNextQuestion. -/
def revealToIdle (g : GameState) : GameState :=
  { g with currentPhase := .idle, nextTimer := some .start }

/-- isCorrectChoice: `Number(choiceIndex) === currentQuestion.correctIndex`.
The argument is the numeric coercion of the submitted value; `none` (NaN)
is unequal to every integer. -/
def isCorrectChoice (choiceIndex : Option Int) (currentQuestion : Question) : Bool :=
  choiceIndex = some currentQuestion.correctIndex

/-- connectedPlayerCount: the players with `connected` true (line 380). -/
def connectedCount (g : GameState) : Nat :=
  (g.playerIdToPlayer.filter (fun e => e.2.connected)).length

/-- correctSoFar: correct submissions already recorded this round (line 377). -/
def correctSoFar (g : GameState) : Nat :=
  (g.submissionsThisRound.filter (fun e => e.2.correct)).length

/-- The late-join lock test of line 367:
`player.lockedUntilQuestionId && player.lockedUntilQuestionId === currentQuestion.id`
(an empty-string id is falsy and disables the lock). -/
def lockActive (p : Player) (q : Question) : Bool :=
  match p.lockedUntilQuestionId with
  | some l => l ≠ "" && l = q.id
  | none => false

/-- Rejection reasons of the answer handler, one per early-return branch
(lines 348-369), named after the spec taxonomy of section 7. -/
inductive AnswerReject
  | phaseMismatch
  | staleQuestion
  | duplicateSubmission
  | unknownPlayer
  | lateJoinLocked
deriving DecidableEq

/-- Result payload of the answer handler: a rejection, or
`answer_result ok:true` with correct flag, points and 1-based rank. -/
inductive AnswerResult
  | rejected (reason : AnswerReject)
  | accepted (correct : Bool) (points : Int) (rank : Option Nat)
deriving DecidableEq

/-- Whether an answer result is an accepted submission (`ok: true`). -/
def AnswerResult.isOk : AnswerResult → Bool
  | .accepted _ _ _ => true
  | .rejected _ => false

/-- The socket `answer` event handler (lines 346-402). -/
def answerHandler (g : GameState) (playerId questionId : String)
    (choiceIndex : Option Int) (t : Nat) : GameState × AnswerResult :=
  if g.currentPhase ≠ .question then (g, .rejected .phaseMismatch)
  else
    match g.currentQuestion with
    | none => (g, .rejected .staleQuestion)
    | some q =>
      if questionId ≠ q.id then (g, .rejected .staleQuestion)
      else if mHas g.submissionsThisRound playerId then
        (g, .rejected .duplicateSubmission)
      else
        match mGet g.playerIdToPlayer playerId with
        | none => (g, .rejected .unknownPlayer)
        | some player =>
          if lockActive player q then (g, .rejected .lateJoinLocked)
          else
            let correct := isCorrectChoice choiceIndex q
            let soFar := correctSoFar g
            let rank : Option Nat := if correct then some (soFar + 1) else none
            let numConnected := connectedCount g
            let points : Int :=
              if correct then 10 * (numConnected : Int) - 10 * (soFar : Int) else 0
            let sub : Submission :=
              { choiceIndex := choiceIndex, correct := correct,
                points := points, answeredAt := t }
            let player' : Player :=
              { player with
                  score := if correct then player.score + points else player.score
                  lastAnswer := some
                    { questionId := questionId, correct := correct,
                      pointsAwarded := points } }
            ({ g with
                submissionsThisRound := mSet g.submissionsThisRound playerId sub
                playerIdToPlayer := mSet g.playerIdToPlayer playerId player' },
             .accepted correct points rank)

/-- Result of the join handler: the `join_error` rejection ("That name is
already taken...") or the `joined` payload carrying the player record. -/
inductive JoinResult
  | nameTaken
  | joined (self : Player)
deriving DecidableEq

/-- The `lockedUntilQuestionId` value assigned by lines 329-334: the active
question id when joining during the question phase, absent otherwise. -/
def stampVal (g : GameState) : Option String :=
  match g.currentPhase, g.currentQuestion with
  | .question, some q => some q.id
  | _, _ => none

/-- Lines 329-334: stamp `lockedUntilQuestionId` with the active question id
when joining during the question phase, otherwise delete the field. -/
def stampLock (g : GameState) (p : Player) : Player :=
  { p with lockedUntilQuestionId := stampVal g }

/-- Store the (lock-stamped) player record and emit the `joined` payload. -/
def finishJoin (g : GameState) (sid : String) (p : Player) :
    GameState × JoinResult :=
  let p' := stampLock g p
  ({ g with playerIdToPlayer := mSet g.playerIdToPlayer sid p' }, .joined p')

/-- Lines 308-344: the part of the join handler after the reclaim section.
Creates a fresh record (rejecting a taken name) when this socket has no
record yet, else just forces `connected := true`; then the lock stamp. -/
def joinTail (g : GameState) (sid finalName : String) : GameState × JoinResult :=
  match mGet g.playerIdToPlayer sid with
  | some p => finishJoin g sid { p with connected := true }
  | none =>
    let fn := if finalName = "" then sanitizeName "Player" else finalName
    if mHas g.playerNameToId fn then (g, .nameTaken)
    else
      finishJoin
        { g with playerNameToId := mSet g.playerNameToId fn sid }
        sid
        { id := sid, name := fn, score := 0, connected := true,
          lockedUntilQuestionId := none, lastAnswer := none }

/-- The socket `join` event handler (lines 282-344).  `live` is the set of
currently attached socket ids (`io.sockets.sockets`). -/
def joinHandler (g : GameState) (live : List String) (sid raw : String) :
    GameState × JoinResult :=
  let finalName := sanitizeName raw
  if finalName = "" then joinTail g sid finalName
  else
    match mGet g.playerNameToId finalName with
    | none => joinTail g sid finalName
    | some existingId =>
      match mGet g.playerIdToPlayer existingId with
      | none => joinTail g sid finalName
      | some existing =>
        if existingId ∈ live then (g, .nameTaken)
        else
          let reclaimed : Player :=
            { id := sid, name := finalName, score := existing.score,
              connected := true, lockedUntilQuestionId := none,
              lastAnswer := none }
          let players := mSet (mDel g.playerIdToPlayer existingId) sid reclaimed
          let names := mSet g.playerNameToId finalName sid
          joinTail { g with playerIdToPlayer := players, playerNameToId := names }
            sid finalName

/-- The socket `disconnect` handler (lines 404-410): flip `connected` off,
keep the record and score. -/
def disconnectHandler (g : GameState) (sid : String) : GameState :=
  match mGet g.playerIdToPlayer sid with
  | some p =>
      let players := mSet g.playerIdToPlayer sid { p with connected := false }
      { g with playerIdToPlayer := players }
  | none => g

/-- Events emitted to clients, reduced to the shape relevant here:
broadcast kinds and per-socket responses. -/
inductive OutEvent
  | leaderboardEv
  | questionEv (questionId : Option String)
  | revealEv (questionId : Option String)
  | joinedEv (sid : String)
  | joinErrorEv (sid : String)
  | answerResultEv (sid : String)
deriving DecidableEq

/-- broadcastState (lines 103-110): leaderboard always, plus the question
payload in the question phase or the reveal payload in the reveal phase. -/
def broadcastOf (g : GameState) : List OutEvent :=
  OutEvent.leaderboardEv ::
    (match g.currentPhase with
     | .question => [.questionEv (g.currentQuestion.map Question.id)]
     | .reveal => [.revealEv (g.currentQuestion.map Question.id)]
     | .idle => [])

/-- Inbound events of the whole system: socket attach/detach, the two
client actions, and a firing of the single game-loop timer (carrying the
random choices a rebuild would consume and the current clock). -/
inductive Event
  | connect (sid : String)
  | join (sid : String) (name : String)
  | answer (sid : String) (questionId : String) (choiceIndex : Option Int) (t : Nat)
  | disconnect (sid : String)
  | timerFire (rand : Nat → Nat) (t : Nat)

/-- Full system state: the live socket set plus the game state. -/
structure SysState where
  live : List String
  game : GameState

/-- One event dispatched by the single-threaded event loop.  Join and answer
handlers only run for attached sockets; a timer firing runs whichever
callback is armed (or nothing). -/
def stepE (s : SysState) (e : Event) : SysState × List OutEvent :=
  match e with
  | .connect sid =>
      if sid ∈ s.live then (s, []) else ({ s with live := sid :: s.live }, [])
  | .join sid raw =>
      if sid ∈ s.live then
        let gr := joinHandler s.game s.live sid raw
        match gr.2 with
        | .nameTaken => ({ s with game := gr.1 }, [.joinErrorEv sid])
        | .joined _ => ({ s with game := gr.1 },
            OutEvent.joinedEv sid :: broadcastOf gr.1)
      else (s, [])
  | .answer sid qid c t =>
      if sid ∈ s.live then
        let gr := answerHandler s.game sid qid c t
        match gr.2 with
        | .rejected _ => ({ s with game := gr.1 }, [.answerResultEv sid])
        | .accepted _ _ _ => ({ s with game := gr.1 },
            [.answerResultEv sid, .leaderboardEv])
      else (s, [])
  | .disconnect sid =>
      if sid ∈ s.live then
        ({ live := s.live.erase sid, game := disconnectHandler s.game sid }, [])
      else (s, [])
  | .timerFire rand t =>
      match s.game.nextTimer with
      | none => (s, [])
      | some .start =>
          let g' := startNextQuestion { s.game with nextTimer := none } rand t
          ({ s with game := g' }, broadcastOf g')
      | some .reveal =>
          let g' := endQuestionAndReveal { s.game with nextTimer := none }
          ({ s with game := g' }, broadcastOf g')
      | some .toIdle =>
          let g' := revealToIdle { s.game with nextTimer := none }
          ({ s with game := g' }, broadcastOf g')

/-- The state right after `server.listen`: empty registries, idle phase,
distinguished initial cursor/order, and the startup timer armed to run
startNextQuestion. -/
def initState (catalog : List Question) : SysState :=
  { live := [],
    game :=
      { questions := catalog, playerIdToPlayer := [], playerNameToId := [],
        currentPhase := .idle, currentQuestion := none,
        currentQuestionIndex := none, questionStartedAt := 0,
        questionEndsAt := 0, submissionsThisRound := [], shuffledOrder := [],
        shuffledCursor := -1, nextTimer := some .start } }

/-- Run a sequence of events from the initial state. -/
def runEvents (catalog : List Question) (evs : List Event) : SysState :=
  evs.foldl (fun s e => (stepE s e).1) (initState catalog)

/-- The question object of an /api/ai-help request body; `text` is `none`
when the field is absent (`undefined`). -/
structure AiQuestion where
  text : Option String
  choices : List String
deriving DecidableEq

/-- An /api/ai-help request body (`req.body`); the whole body may be absent,
in which case line 153 defaults it to an empty object. -/
structure AiReqBody where
  question : Option AiQuestion
deriving DecidableEq

/-- The upstream fetch response: HTTP-level success flag plus body text. -/
structure UpstreamResponse where
  ok : Bool
  body : String
deriving DecidableEq

/-- The `!question || !question.text` test of line 154: question absent, or
its text absent or the empty string (both falsy). -/
def aiBadInput (reqBody : Option AiReqBody) : Bool :=
  match (reqBody.getD { question := none }).question with
  | none => true
  | some q => q.text = none || q.text = some ""

/-- The HTTP status computed by the /api/ai-help handler (lines 148-198):
500 for a falsy configured key, 400 for a body without question text, 502
for an upstream non-success response, 500 for a thrown fetch error (the
catch block), else 200. -/
def aiHelpStatus (apiKey : String) (reqBody : Option AiReqBody)
    (upstream : Except String UpstreamResponse) : Nat :=
  if apiKey = "" then 500
  else if aiBadInput reqBody then 400
  else
    match upstream with
    | .error _ => 500
    | .ok u => if u.ok = false then 502 else 200

/-- The invariant maintained by every reachable system state: the catalog is
the fixed module constant; every player record is indexed from its name;
`connected` players are exactly those whose socket is attached; the question
phase always carries a loaded question; the shuffle order is untouched-
initial or a permutation of the catalog indices with the cursor in range;
and with an empty catalog the loop is permanently idle with at most the
startup timer armed. -/
def Inv (catalog : List Question) (s : SysState) : Prop :=
  s.game.questions = catalog ∧
  (∀ id p, mGet s.game.playerIdToPlayer id = some p →
     mGet s.game.playerNameToId p.name = some id) ∧
  (∀ id p, mGet s.game.playerIdToPlayer id = some p → p.connected = true →
     id ∈ s.live) ∧
  (s.game.currentPhase = .question → (s.game.currentQuestion).isSome) ∧
  ((s.game.shuffledOrder = [] ∧ s.game.shuffledCursor = -1) ∨
     (s.game.shuffledOrder.Perm (List.range catalog.length) ∧
      0 ≤ s.game.shuffledCursor ∧
      s.game.shuffledCursor < (s.game.shuffledOrder.length : Int))) ∧
  (catalog = [] → s.game.currentPhase = .idle ∧
     (s.game.nextTimer = some .start ∨ s.game.nextTimer = none))

/-- A concrete two-choice question used by witnesses and counterexamples. -/
def exQ : Question :=
  { id := "q1", text := "pick one", choices := ["A", "B"], correctIndex := 0 }

/-- A concrete registered connected player. -/
def exPlayerA : Player :=
  { id := "a", name := "Ann", score := 0, connected := true,
    lockedUntilQuestionId := none, lastAnswer := none }

/-- A concrete game state in the question phase with one connected player
and an empty round ledger. -/
def exG1 : GameState :=
  { questions := [exQ], playerIdToPlayer := [("a", exPlayerA)],
    playerNameToId := [("Ann", "a")], currentPhase := .question,
    currentQuestion := some exQ, currentQuestionIndex := some 0,
    questionStartedAt := 0, questionEndsAt := 10000,
    submissionsThisRound := [], shuffledOrder := [0], shuffledCursor := 0,
    nextTimer := some .reveal }

/-- `exG1` after a first (correct) submission by player `a`. -/
def exG2 : GameState :=
  { exG1 with submissionsThisRound :=
      [("a", { choiceIndex := some 0, correct := true, points := 10,
               answeredAt := 1 })] }

/-- A concrete player locked for the active question `exQ`. -/
def exPlayerB : Player :=
  { id := "b", name := "Bea", score := 0, connected := true,
    lockedUntilQuestionId := some "q1", lastAnswer := none }

/-- A concrete player locked for a different (stale) question id. -/
def exPlayerC : Player :=
  { id := "c", name := "Cal", score := 0, connected := true,
    lockedUntilQuestionId := some "q0", lastAnswer := none }

/-- `exG1` with two further players carrying late-join locks. -/
def exG3 : GameState :=
  { exG1 with
      playerIdToPlayer :=
        [("a", exPlayerA), ("b", exPlayerB), ("c", exPlayerC)],
      playerNameToId := [("Ann", "a"), ("Bea", "b"), ("Cal", "c")] }

/-- A concrete game state with a disconnected player holding a score,
its socket detached — the reclaim scenario. -/
def exG4 : GameState :=
  { exG1 with
      playerIdToPlayer :=
        [("a", { exPlayerA with connected := false, score := 70 })],
      currentPhase := .idle, currentQuestion := none }

/-- A short witness trace: Ann joins from socket `a`, then socket `b`
attaches. -/
def wTrace : List Event :=
  [ .connect "a", .join "a" "Ann", .connect "b" ]

/-- The record created for Ann by `wTrace` (joined while idle). -/
def wAnn : Player :=
  { id := "a", name := "Ann", score := 0, connected := true,
    lockedUntilQuestionId := none, lastAnswer := none }

/-- `exPlayerA` after a first correct answer in `exG1` (awarded 10). -/
def wAnnScored : Player :=
  { id := "a", name := "Ann", score := 10, connected := true,
    lockedUntilQuestionId := none,
    lastAnswer := some { questionId := "q1", correct := true,
                         pointsAwarded := 10 } }

/-- The record created for a fresh join of Bob during the `exG1` round. -/
def wBob : Player :=
  { id := "b", name := "Bob", score := 0, connected := true,
    lockedUntilQuestionId := some "q1", lastAnswer := none }

/-- Event trace for the score-decrease counterexample: three players join
while idle, the question starts, two answer correctly and disconnect. -/
def c4Trace : List Event :=
  [ .connect "a", .join "a" "A", .connect "b", .join "b" "B",
    .connect "c", .join "c" "C",
    .timerFire (fun _ => 0) 5,
    .answer "a" "q1" (some 0) 6,
    .answer "b" "q1" (some 0) 7,
    .disconnect "a", .disconnect "b" ]

/-- Event trace for the late-join lock counterexample over a one-question
catalog: `b` joins mid-question, the loop cycles reveal, idle and starts the
next round, which re-asks the same question. -/
def c6Trace : List Event :=
  [ .connect "a", .join "a" "Ann",
    .timerFire (fun _ => 0) 5,
    .connect "b", .join "b" "Bob",
    .timerFire (fun _ => 0) 20,
    .timerFire (fun _ => 0) 23,
    .timerFire (fun _ => 0) 25 ]

theorem mGet_mSet_self {α : Type} (m : List (String × α)) (k : String) (v : α) :
    mGet (mSet m k v) k = some v := by
  induction m with
  | nil => simp [mSet, mGet]
  | cons e t ih =>
    obtain ⟨k', v'⟩ := e
    by_cases h : k' = k
    · simp [mSet, h, mGet]
    · simp [mSet, h, mGet, ih]

theorem mGet_mSet_ne {α : Type} (m : List (String × α)) (k k' : String) (v : α)
    (h : k' ≠ k) : mGet (mSet m k v) k' = mGet m k' := by
  have h' : ¬(k = k') := fun hh => h hh.symm
  induction m with
  | nil => simp [mSet, mGet, h']
  | cons e t ih =>
    obtain ⟨k₀, v₀⟩ := e
    by_cases h0 : k₀ = k
    · subst h0
      simp [mSet, mGet, h']
    · by_cases h1 : k₀ = k'
      · simp [mSet, h0, mGet, h1, h]
      · simp [mSet, h0, mGet, h1, ih]

theorem mGet_mDel_self {α : Type} (m : List (String × α)) (k : String) :
    mGet (mDel m k) k = none := by
  induction m with
  | nil => rfl
  | cons e t ih =>
    obtain ⟨k₀, v₀⟩ := e
    by_cases h0 : k₀ = k
    · simpa [mDel, List.filter_cons, h0] using ih
    · simpa [mDel, List.filter_cons, h0, mGet] using ih

theorem mGet_mDel_ne {α : Type} (m : List (String × α)) (k k' : String)
    (h : k' ≠ k) : mGet (mDel m k) k' = mGet m k' := by
  induction m with
  | nil => rfl
  | cons e t ih =>
    obtain ⟨k₀, v₀⟩ := e
    by_cases h0 : k₀ = k
    · subst h0
      have h1 : ¬(k₀ = k') := fun hh => h hh.symm
      simpa [mDel, List.filter_cons, mGet, h1] using ih
    · by_cases h1 : k₀ = k'
      · simp [mDel, List.filter_cons, mGet, h0, h1, h]
      · simpa [mDel, List.filter_cons, mGet, h0, h1] using ih

theorem sanitizeName_ne_empty (raw : String) : sanitizeName raw ≠ "" := by
  have hdef : sanitizeName raw =
      if String.mk ((jsTrim raw).data.take 20) = "" then "Player"
      else String.mk ((jsTrim raw).data.take 20) := rfl
  rw [hdef]
  split
  · decide
  · assumption

/-- C1: an accepted submission to the active question during the question
phase by a registered, unlocked, not-yet-submitted player is scored
`10 * connectedCount − 10 * correctSoFar` with rank `correctSoFar + 1` and
the score increases by exactly the points when the chosen index is correct;
an incorrect choice yields 0 points and an unchanged score. -/
theorem answer_scoring (g : GameState) (pid qid : String) (c : Option Int)
    (t : Nat) (q : Question) (p : Player)
    (hphase : g.currentPhase = .question)
    (hq : g.currentQuestion = some q)
    (hqid : qid = q.id)
    (hfresh : mGet g.submissionsThisRound pid = none)
    (hp : mGet g.playerIdToPlayer pid = some p)
    (hlock : lockActive p q = false) :
    (isCorrectChoice c q = true →
      (answerHandler g pid qid c t).2 =
        .accepted true
          (10 * (connectedCount g : Int) - 10 * (correctSoFar g : Int))
          (some (correctSoFar g + 1)) ∧
      mGet (answerHandler g pid qid c t).1.playerIdToPlayer pid =
        some { p with
                 score := p.score +
                   (10 * (connectedCount g : Int) - 10 * (correctSoFar g : Int)),
                 lastAnswer := some
                   { questionId := qid, correct := true,
                     pointsAwarded :=
                       10 * (connectedCount g : Int) - 10 * (correctSoFar g : Int) } }) ∧
    (isCorrectChoice c q = false →
      (answerHandler g pid qid c t).2 = .accepted false 0 none ∧
      mGet (answerHandler g pid qid c t).1.playerIdToPlayer pid =
        some { p with
                 lastAnswer := some
                   { questionId := qid, correct := false,
                     pointsAwarded := 0 } }) := by
  constructor
  · intro hc
    simp [answerHandler, hphase, hq, hqid, mHas, hfresh, hp, hlock, hc,
      mGet_mSet_self]
  · intro hc
    simp [answerHandler, hphase, hq, hqid, mHas, hfresh, hp, hlock, hc,
      mGet_mSet_self]

/-- Witness for answer_scoring: a concrete correct submission by player
`a` in `exG1` yields 10 points and rank 1. -/
theorem answer_scoring_witness :
    (exG1.currentPhase = .question ∧ exG1.currentQuestion = some exQ ∧
     "q1" = exQ.id ∧ mGet exG1.submissionsThisRound "a" = none ∧
     mGet exG1.playerIdToPlayer "a" = some exPlayerA ∧
     lockActive exPlayerA exQ = false ∧ isCorrectChoice (some 0) exQ = true) ∧
    (answerHandler exG1 "a" "q1" (some 0) 3).2 =
      .accepted true
        (10 * (connectedCount exG1 : Int) - 10 * (correctSoFar exG1 : Int))
        (some (correctSoFar exG1 + 1)) := by
  refine ⟨by decide, ?_⟩
  exact ((answer_scoring exG1 "a" "q1" (some 0) 3 exQ exPlayerA (by decide)
    (by decide) (by decide) (by decide) (by decide) (by decide)).1 (by decide)).1

/-- C5: a second submission by a player who already has a ledger entry in
the active round is rejected as a duplicate and changes nothing. -/
theorem answer_duplicate_rejected (g : GameState) (pid qid : String)
    (c : Option Int) (t : Nat) (q : Question) (sub : Submission)
    (hphase : g.currentPhase = .question)
    (hq : g.currentQuestion = some q)
    (hqid : qid = q.id)
    (hdup : mGet g.submissionsThisRound pid = some sub) :
    answerHandler g pid qid c t = (g, .rejected .duplicateSubmission) := by
  simp [answerHandler, hphase, hq, hqid, mHas, hdup]

/-- Witness for answer_duplicate_rejected: in `exG2` player `a` already
submitted; a second attempt is rejected and the state is unchanged. -/
theorem answer_duplicate_rejected_witness :
    (exG2.currentPhase = .question ∧ exG2.currentQuestion = some exQ ∧
     "q1" = exQ.id ∧
     mGet exG2.submissionsThisRound "a" =
       some { choiceIndex := some 0, correct := true, points := 10,
              answeredAt := 1 }) ∧
    answerHandler exG2 "a" "q1" (some 1) 4 =
      (exG2, .rejected .duplicateSubmission) := by
  refine ⟨by decide, ?_⟩
  exact answer_duplicate_rejected exG2 "a" "q1" (some 1) 4 exQ
    { choiceIndex := some 0, correct := true, points := 10, answeredAt := 1 }
    (by decide) (by decide) (by decide) (by decide)

/-- C10: a submitted choice whose numeric coercion differs from the correct
index — including out-of-range indices and NaN — is accepted as incorrect
with 0 points, recorded in the ledger with its coerced value, leaves the
score unchanged, and consumes the single submission of the round. -/
theorem answer_no_choice_validation (g : GameState) (pid qid : String)
    (c : Option Int) (t : Nat) (q : Question) (p : Player)
    (hphase : g.currentPhase = .question)
    (hq : g.currentQuestion = some q)
    (hqid : qid = q.id)
    (hfresh : mGet g.submissionsThisRound pid = none)
    (hp : mGet g.playerIdToPlayer pid = some p)
    (hlock : lockActive p q = false)
    (hwrong : isCorrectChoice c q = false) :
    (answerHandler g pid qid c t).2 = .accepted false 0 none ∧
    mGet (answerHandler g pid qid c t).1.submissionsThisRound pid =
      some { choiceIndex := c, correct := false, points := 0, answeredAt := t } ∧
    mGet (answerHandler g pid qid c t).1.playerIdToPlayer pid =
      some { p with
               lastAnswer := some
                 { questionId := qid, correct := false, pointsAwarded := 0 } } ∧
    (∀ c' t', (answerHandler (answerHandler g pid qid c t).1 pid qid c' t').2 =
      .rejected .duplicateSubmission) := by
  have hmain : answerHandler g pid qid c t =
      ({ g with
          playerIdToPlayer := mSet g.playerIdToPlayer pid
            { p with
                lastAnswer := some
                  { questionId := qid, correct := false, pointsAwarded := 0 } },
          submissionsThisRound := mSet g.submissionsThisRound pid
            { choiceIndex := c, correct := false, points := 0,
              answeredAt := t } },
       .accepted false 0 none) := by
    simp [answerHandler, hphase, hq, hqid, mHas, hfresh, hp, hlock, hwrong]
  refine ⟨?_, ?_, ?_, ?_⟩
  · rw [hmain]
  · rw [hmain]
    exact mGet_mSet_self _ _ _
  · rw [hmain]
    exact mGet_mSet_self _ _ _
  · intro c' t'
    rw [hmain]
    simp [answerHandler, hphase, hq, hqid, mHas, mGet_mSet_self]

/-- Witness for answer_no_choice_validation: in `exG1` a NaN-coercing
submission by `a` is accepted as incorrect with 0 points. -/
theorem answer_no_choice_validation_witness :
    (exG1.currentPhase = .question ∧ exG1.currentQuestion = some exQ ∧
     "q1" = exQ.id ∧ mGet exG1.submissionsThisRound "a" = none ∧
     mGet exG1.playerIdToPlayer "a" = some exPlayerA ∧
     lockActive exPlayerA exQ = false ∧ isCorrectChoice none exQ = false) ∧
    (answerHandler exG1 "a" "q1" none 3).2 = .accepted false 0 none ∧
    mGet (answerHandler exG1 "a" "q1" none 3).1.submissionsThisRound "a" =
      some { choiceIndex := none, correct := false, points := 0,
             answeredAt := 3 } := by
  refine ⟨by decide, ?_, ?_⟩
  · exact (answer_no_choice_validation exG1 "a" "q1" none 3 exQ exPlayerA
      (by decide) (by decide) (by decide) (by decide) (by decide) (by decide)
      (by decide)).1
  · exact (answer_no_choice_validation exG1 "a" "q1" none 3 exQ exPlayerA
      (by decide) (by decide) (by decide) (by decide) (by decide) (by decide)
      (by decide)).2.1

theorem mGet_mSet_mDel_cases {α : Type} (m : List (String × α))
    (eid sid i : String) (r p : α)
    (h : mGet (mSet (mDel m eid) sid r) i = some p) :
    p = r ∨ mGet m i = some p := by
  by_cases hi : i = sid
  · subst hi
    rw [mGet_mSet_self] at h
    exact Or.inl (Option.some.inj h).symm
  · rw [mGet_mSet_ne _ _ _ _ hi] at h
    by_cases he : i = eid
    · subst he
      rw [mGet_mDel_self] at h
      cases h
    · rw [mGet_mDel_ne _ _ _ he] at h
      exact Or.inr h

/-- C3: a join whose sanitized name is bound to a record whose socket is no
longer attached succeeds as a reclaim: the new record carries exactly the
prior score with connected true, the old identity record is deleted, and
the name is rebound to the new connection identity. -/
theorem join_reclaim (g : GameState) (live : List String)
    (sid raw oldId : String) (p : Player)
    (hname : mGet g.playerNameToId (sanitizeName raw) = some oldId)
    (hold : mGet g.playerIdToPlayer oldId = some p)
    (hconn : p.connected = false)
    (hnotlive : oldId ∉ live)
    (hne : sid ≠ oldId) :
    ∃ p', (joinHandler g live sid raw).2 = .joined p' ∧
      mGet (joinHandler g live sid raw).1.playerIdToPlayer sid = some p' ∧
      p'.score = p.score ∧ p'.connected = true ∧ p'.name = sanitizeName raw ∧
      mGet (joinHandler g live sid raw).1.playerIdToPlayer oldId = none ∧
      mGet (joinHandler g live sid raw).1.playerNameToId (sanitizeName raw) =
        some sid := by
  have hne' := sanitizeName_ne_empty raw
  have hns : oldId ≠ sid := fun hh => hne hh.symm
  simp only [joinHandler, if_neg hne', hname, hold, if_neg hnotlive]
  simp only [joinTail, mGet_mSet_self, finishJoin, stampLock]
  refine ⟨_, rfl, rfl, rfl, rfl, rfl, ?_, ?_⟩
  · rw [mGet_mSet_ne _ _ _ _ hns, mGet_mSet_ne _ _ _ _ hns, mGet_mDel_self]
  · trivial

/-- Witness for join_reclaim: in `exG4`, the name Ann is held by detached
player `a` with score 70; socket `b` joining as Ann reclaims it. -/
theorem join_reclaim_witness :
    (mGet exG4.playerNameToId (sanitizeName "Ann") = some "a" ∧
     mGet exG4.playerIdToPlayer "a" =
       some { exPlayerA with connected := false, score := 70 } ∧
     ("a" : String) ∉ (["b"] : List String) ∧ ("b" : String) ≠ "a") ∧
    ∃ p', (joinHandler exG4 ["b"] "b" "Ann").2 = .joined p' ∧
      mGet (joinHandler exG4 ["b"] "b" "Ann").1.playerIdToPlayer "b" =
        some p' ∧
      p'.score = 70 ∧ p'.connected = true ∧ p'.name = sanitizeName "Ann" ∧
      mGet (joinHandler exG4 ["b"] "b" "Ann").1.playerIdToPlayer "a" = none ∧
      mGet (joinHandler exG4 ["b"] "b" "Ann").1.playerNameToId
        (sanitizeName "Ann") = some "b" := by
  refine ⟨by decide, ?_⟩
  exact join_reclaim exG4 ["b"] "b" "Ann" "a"
    { exPlayerA with connected := false, score := 70 }
    (by decide) (by decide) (by decide) (by decide) (by decide)

theorem joinTail_joined_lock (g : GameState) (sid fn : String) (p' : Player)
    (hres : (joinTail g sid fn).2 = .joined p') :
    p'.lockedUntilQuestionId = stampVal g := by
  simp only [joinTail] at hres
  rcases hp0 : mGet g.playerIdToPlayer sid with _ | p0
  · rw [hp0] at hres
    by_cases htaken : mHas g.playerNameToId
        (if fn = "" then sanitizeName "Player" else fn)
    · simp [htaken] at hres
    · simp only [htaken, if_neg, ite_false, Bool.false_eq_true, finishJoin,
        stampLock] at hres
      cases hres
      rfl
  · rw [hp0] at hres
    simp only [finishJoin, stampLock] at hres
    cases hres
    rfl

/-- C6 (amended): joining during the question phase stamps the lock with
the active question id; a submission while the stamped (nonempty) id equals
the active question id is rejected as late-join locked; and because the
lock is keyed to the question id, a later question is answerable exactly
when its id differs from the stamped one. -/
theorem late_join_lock_amended :
    (∀ g live sid raw q p', g.currentPhase = .question →
       g.currentQuestion = some q →
       (joinHandler g live sid raw).2 = .joined p' →
       p'.lockedUntilQuestionId = some q.id) ∧
    (∀ g pid qid c t q p, g.currentPhase = .question →
       g.currentQuestion = some q → qid = q.id →
       mGet g.submissionsThisRound pid = none →
       mGet g.playerIdToPlayer pid = some p →
       p.lockedUntilQuestionId = some q.id → q.id ≠ "" →
       answerHandler g pid qid c t = (g, .rejected .lateJoinLocked)) ∧
    (∀ g pid qid c t q p lid, g.currentPhase = .question →
       g.currentQuestion = some q → qid = q.id →
       mGet g.submissionsThisRound pid = none →
       mGet g.playerIdToPlayer pid = some p →
       p.lockedUntilQuestionId = some lid → lid ≠ q.id →
       ((answerHandler g pid qid c t).2).isOk = true) := by
  refine ⟨?_, ?_, ?_⟩
  · intro g live sid raw q p' hphase hq hres
    have hsv : stampVal g = some q.id := by simp [stampVal, hphase, hq]
    have hne' := sanitizeName_ne_empty raw
    simp only [joinHandler, if_neg hne'] at hres
    rcases hn : mGet g.playerNameToId (sanitizeName raw) with _ | eid
    · simp only [hn] at hres
      rw [joinTail_joined_lock g sid _ p' hres]
      exact hsv
    · simp only [hn] at hres
      rcases he : mGet g.playerIdToPlayer eid with _ | ex
      · simp only [he] at hres
        rw [joinTail_joined_lock g sid _ p' hres]
        exact hsv
      · simp only [he] at hres
        by_cases hlive : eid ∈ live
        · rw [if_pos hlive] at hres
          cases hres
        · rw [if_neg hlive] at hres
          rw [joinTail_joined_lock _ sid _ p' hres]
          exact hsv
  · intro g pid qid c t q p hphase hq hqid hfresh hp hlockval hqne
    have hla : lockActive p q = true := by
      simp [lockActive, hlockval, hqne]
    simp [answerHandler, hphase, hq, hqid, mHas, hfresh, hp, hla]
  · intro g pid qid c t q p lid hphase hq hqid hfresh hp hlockval hne
    have hla : lockActive p q = false := by
      simp [lockActive, hlockval, hne]
    simp [answerHandler, hphase, hq, hqid, mHas, hfresh, hp, hla,
      AnswerResult.isOk]

/-- Witness for late_join_lock_amended: a fresh join into `exG1` during the
question phase is stamped with q1; in `exG3` the q1-locked player `b` is
rejected while the q0-locked player `c` is accepted. -/
theorem late_join_lock_amended_witness :
    ((joinHandler exG1 ["b"] "b" "Bob").2 =
       .joined { id := "b", name := "Bob", score := 0, connected := true,
                 lockedUntilQuestionId := some "q1", lastAnswer := none } ∧
     mGet exG3.playerIdToPlayer "b" = some exPlayerB ∧
     mGet exG3.playerIdToPlayer "c" = some exPlayerC) ∧
    ({ id := "b", name := "Bob", score := 0, connected := true,
       lockedUntilQuestionId := some "q1",
       lastAnswer := none } : Player).lockedUntilQuestionId = some exQ.id ∧
    answerHandler exG3 "b" "q1" (some 0) 3 =
      (exG3, .rejected .lateJoinLocked) ∧
    ((answerHandler exG3 "c" "q1" (some 0) 3).2).isOk = true := by
  refine ⟨by decide, ?_, ?_, ?_⟩
  · exact late_join_lock_amended.1 exG1 ["b"] "b" "Bob" exQ
      { id := "b", name := "Bob", score := 0, connected := true,
        lockedUntilQuestionId := some "q1", lastAnswer := none }
      (by decide) (by decide) (by decide)
  · exact late_join_lock_amended.2.1 exG3 "b" "q1" (some 0) 3 exQ exPlayerB
      (by decide) (by decide) (by decide) (by decide) (by decide) (by decide)
      (by decide)
  · exact late_join_lock_amended.2.2 exG3 "c" "q1" (some 0) 3 exQ exPlayerC
      "q0" (by decide) (by decide) (by decide) (by decide) (by decide)
      (by decide) (by decide)

/-- C6 counterexample: over a one-question catalog, `b` joins during the
first round; after the loop cycles to a second round (started at t=25)
re-asking the same question id, the answer of `b` to this next question is
still rejected as late-join locked — refuting that the lock never applies
once a new question becomes active. -/
theorem late_join_lock_counterexample :
    (runEvents [exQ] c6Trace).game.currentPhase = .question ∧
    (runEvents [exQ] c6Trace).game.currentQuestion = some exQ ∧
    (runEvents [exQ] c6Trace).game.questionStartedAt = 25 ∧
    mGet (runEvents [exQ] c6Trace).game.submissionsThisRound "b" = none ∧
    (mGet (runEvents [exQ] c6Trace).game.playerIdToPlayer "b").map
      Player.lockedUntilQuestionId = some (some "q1") ∧
    (answerHandler (runEvents [exQ] c6Trace).game "b" "q1" (some 0) 26).2 =
      .rejected .lateJoinLocked := by
  decide

/-- C4 counterexample: in the `c4Trace` run, player `c` has score 0; the
subsequent correct submission of `c` (third correct answer with only one
player still connected) is awarded −10 points, dropping the score to −10 —
refuting monotonic non-decrease across submitAnswer. -/
theorem score_decrease_counterexample :
    (mGet (runEvents [exQ] c4Trace).game.playerIdToPlayer "c").map
      Player.score = some 0 ∧
    (mGet (runEvents [exQ]
        (c4Trace ++ [.answer "c" "q1" (some 0) 8])).game.playerIdToPlayer
        "c").map Player.score = some (-10) := by
  decide

/-- C9: the three failure classes of the AI-help endpoint map to distinct
HTTP statuses — falsy key configuration to 500, a body without question
text to 400, an upstream non-success response to 502. -/
theorem ai_help_statuses :
    (∀ b u, aiHelpStatus "" b u = 500) ∧
    (∀ key b u, key ≠ "" → aiBadInput b = true → aiHelpStatus key b u = 400) ∧
    (∀ key b u, key ≠ "" → aiBadInput b = false → u.ok = false →
       aiHelpStatus key b (.ok u) = 502) ∧
    ((500 : Nat) ≠ 400 ∧ (500 : Nat) ≠ 502 ∧ (400 : Nat) ≠ 502) := by
  refine ⟨?_, ?_, ?_, by decide⟩
  · intro b u
    simp [aiHelpStatus]
  · intro key b u hk hb
    simp [aiHelpStatus, hk, hb]
  · intro key b u hk hb hu
    simp [aiHelpStatus, hk, hb, hu]

/-- Witness for ai_help_statuses at concrete requests. -/
theorem ai_help_statuses_witness :
    aiHelpStatus "" none (.ok { ok := true, body := "" }) = 500 ∧
    (("key" : String) ≠ "" ∧ aiBadInput none = true ∧
      aiHelpStatus "key" none (.ok { ok := true, body := "" }) = 400) ∧
    (aiBadInput (some { question := some { text := some "Q", choices := [] } })
        = false ∧
      aiHelpStatus "key"
        (some { question := some { text := some "Q", choices := [] } })
        (.ok { ok := false, body := "boom" }) = 502) := by
  refine ⟨ai_help_statuses.1 none (.ok { ok := true, body := "" }),
    ⟨by decide, by decide, ?_⟩, ⟨by decide, ?_⟩⟩
  · exact ai_help_statuses.2.1 "key" none (.ok { ok := true, body := "" })
      (by decide) (by decide)
  · exact ai_help_statuses.2.2.1 "key"
      (some { question := some { text := some "Q", choices := [] } })
      { ok := false, body := "boom" } (by decide) (by decide) (by decide)

theorem cons_set_perm (x : Nat) :
    ∀ (t : List Nat) (m b : Nat), t.get? m = some b →
      (b :: t.set m x).Perm (x :: t) := by
  intro t
  induction t with
  | nil =>
    intro m b h
    cases h
  | cons a t ih =>
    intro m b h
    cases m with
    | zero =>
      cases h
      exact List.Perm.swap x a t
    | succ m =>
      have h' : t.get? m = some b := h
      have s1 : (b :: a :: t.set m x).Perm (a :: b :: t.set m x) :=
        List.Perm.swap a b _
      have s2 : (a :: b :: t.set m x).Perm (a :: x :: t) :=
        List.Perm.cons a (ih m b h')
      have s3 : (a :: x :: t).Perm (x :: a :: t) := List.Perm.swap x a t
      exact (s1.trans s2).trans s3

theorem set_set_perm :
    ∀ (l : List Nat) (i j a b : Nat), l.get? i = some a → l.get? j = some b →
      ((l.set i b).set j a).Perm l := by
  intro l
  induction l with
  | nil =>
    intro i j a b h1 _
    cases h1
  | cons c t ih =>
    intro i j a b h1 h2
    cases i with
    | zero =>
      cases h1
      cases j with
      | zero =>
        cases h2
        exact List.Perm.refl _
      | succ m =>
        exact cons_set_perm c t m b h2
    | succ n =>
      cases j with
      | zero =>
        cases h2
        exact cons_set_perm c t n a h1
      | succ m =>
        exact List.Perm.cons c (ih n m a b h1 h2)

theorem listSwap_perm (l : List Nat) (i j : Nat) : (listSwap l i j).Perm l := by
  unfold listSwap
  split
  · next a b h1 h2 => exact set_set_perm l i j a b h1 h2
  · exact List.Perm.refl l

theorem fyLoop_perm (rand : Nat → Nat) :
    ∀ (i : Nat) (l : List Nat), (fyLoop rand i l).Perm l
  | 0, _ => List.Perm.refl _
  | i + 1, l =>
    (fyLoop_perm rand i (listSwap l (i + 1) (rand (i + 1) % (i + 2)))).trans
      (listSwap_perm l (i + 1) (rand (i + 1) % (i + 2)))

theorem fisherYatesShuffle_perm (l : List Nat) (rand : Nat → Nat) :
    (fisherYatesShuffle l rand).Perm l :=
  fyLoop_perm rand (l.length - 1) l

theorem buildShuffledOrder_perm (n : Nat) (rand : Nat → Nat) :
    (buildShuffledOrder n rand).Perm (List.range n) :=
  fisherYatesShuffle_perm (List.range n) rand

theorem buildShuffledOrder_length (n : Nat) (rand : Nat → Nat) :
    (buildShuffledOrder n rand).length = n := by
  rw [(buildShuffledOrder_perm n rand).length_eq, List.length_range]

theorem listGetInt_natCast (l : List Nat) (k : Nat) :
    listGetInt l (k : Int) = l.get? k := by
  simp [listGetInt]

theorem runDraws_no_rebuild (n : Nat) (o : List Nat) (ho : o.length = n) :
    ∀ (rs : List (Nat → Nat)) (c : Nat), c + 1 + rs.length ≤ n →
      runDraws n rs (o, (c : Int)) =
        ((o, ((c + rs.length : Nat) : Int)),
         ((o.drop (c + 1)).take rs.length).map some) := by
  intro rs
  induction rs with
  | nil =>
    intro c hc
    simp [runDraws]
  | cons r rs ih =>
    intro c hc
    have hlen : (r :: rs).length = rs.length + 1 := rfl
    have h2 : c + 2 ≤ n := by
      rw [hlen] at hc
      omega
    have hnr : needsRebuild n o (c : Int) = false := by
      unfold needsRebuild
      rw [ho]
      have e1 : (decide (n ≠ n)) = false := by simp
      have e2 : (decide ((c : Int) ≥ (n : Int) - 1)) = false := by
        rw [decide_eq_false_iff_not]
        omega
      rw [e1, e2]
      rfl
    have hstep : drawStep n r o (c : Int) = (o, ((c + 1 : Nat) : Int)) := by
      simp only [drawStep, hnr, Bool.false_eq_true, if_false, Prod.mk.injEq]
      refine ⟨trivial, ?_⟩
      push_cast
      ring
    have hrec := ih (c + 1) (by rw [hlen] at hc; omega)
    have hc1 : c + 1 < o.length := by
      rw [ho]
      omega
    have hdrop : o.drop (c + 1) = o[c+1] :: o.drop (c + 2) :=
      List.drop_eq_getElem_cons hc1
    have hget : o.get? (c + 1) = some o[c+1] := by
      rw [List.get?_eq_getElem?, List.getElem?_eq_getElem hc1]
    have hrw : runDraws n (r :: rs) (o, (c : Int)) =
        ((runDraws n rs (drawStep n r o (c : Int))).1,
         listGetInt (drawStep n r o (c : Int)).1
             (drawStep n r o (c : Int)).2 ::
           (runDraws n rs (drawStep n r o (c : Int))).2) := rfl
    rw [hrw, hstep, hrec, listGetInt_natCast, hget, hlen, hdrop,
      List.take_succ_cons, List.map_cons,
      (by omega : c + 1 + rs.length = c + (rs.length + 1))]

/-- C7 (amended): for a catalog of size N ≥ 1, from any state about to
regenerate, the next N draws form one full bag traversal: they emit some
permutation of the catalog indices — each index exactly once, all indices
valid — and leave the shuffle state at a regeneration boundary again. -/
theorem shuffle_traversal (n : Nat) (hn : 1 ≤ n) (order : List Nat)
    (cursor : Int) (hs : needsRebuild n order cursor = true)
    (rs : List (Nat → Nat)) (hlen : rs.length = n) :
    (∃ emitted : List Nat, emitted.Perm (List.range n) ∧
       (runDraws n rs (order, cursor)).2 = emitted.map some ∧
       (∀ i, i < n → emitted.count i = 1) ∧
       (∀ x ∈ (runDraws n rs (order, cursor)).2, ∃ i, x = some i ∧ i < n)) ∧
    needsRebuild n (runDraws n rs (order, cursor)).1.1
      (runDraws n rs (order, cursor)).1.2 = true := by
  rcases rs with _ | ⟨r, rs'⟩
  · simp at hlen
    omega
  have hlen' : rs'.length = n - 1 := by
    have : rs'.length + 1 = n := by simpa using hlen
    omega
  set o' := buildShuffledOrder n r with ho'def
  have ho' : o'.length = n := buildShuffledOrder_length n r
  have hperm : o'.Perm (List.range n) := buildShuffledOrder_perm n r
  have hstep : drawStep n r order cursor = (o', (0 : Int)) := by
    simp [drawStep, hs, ← ho'def]
  have hrec := runDraws_no_rebuild n o' ho' rs' 0 (by omega)
  have h0 : 0 < o'.length := by omega
  have hget : o'.get? 0 = some o'[0] := by
    rw [List.get?_eq_getElem?, List.getElem?_eq_getElem h0]
  have htake : (o'.drop 1).take rs'.length = o'.drop 1 := by
    apply List.take_of_length_le
    rw [List.length_drop]
    omega
  have hwhole : o'[0] :: o'.drop 1 = o' := by
    have := List.drop_eq_getElem_cons h0 (l := o')
    simpa using this.symm
  have hout : (runDraws n (r :: rs') (order, cursor)).2 = o'.map some := by
    show (listGetInt (drawStep n r order cursor).1
        (drawStep n r order cursor).2 ::
      (runDraws n rs' (drawStep n r order cursor)).2) = o'.map some
    rw [hstep]
    show listGetInt o' ((0 : Nat) : Int) ::
      (runDraws n rs' (o', ((0 : Nat) : Int))).2 = o'.map some
    rw [listGetInt_natCast, hget, hrec]
    simp only [zero_add, htake]
    conv_rhs => rw [← hwhole]
    simp
  have hfinal : (runDraws n (r :: rs') (order, cursor)).1 =
      (o', ((rs'.length : Nat) : Int)) := by
    show (runDraws n rs' (drawStep n r order cursor)).1 = _
    rw [hstep]
    show (runDraws n rs' (o', ((0 : Nat) : Int))).1 = _
    rw [hrec]
    simp
  constructor
  · refine ⟨o', hperm, hout, ?_, ?_⟩
    · intro i hi
      rw [hperm.count_eq]
      exact List.count_eq_one_of_mem (List.nodup_range n)
        (List.mem_range.mpr hi)
    · intro x hx
      rw [hout] at hx
      rcases List.mem_map.mp hx with ⟨i, hi, hxi⟩
      exact ⟨i, hxi.symm, List.mem_range.mp (hperm.mem_iff.mp hi)⟩
  · rw [hfinal]
    show needsRebuild n o' ((rs'.length : Nat) : Int) = true
    unfold needsRebuild
    have e2 : (decide (((rs'.length : Nat) : Int) ≥ (o'.length : Int) - 1)) =
        true := by
      rw [decide_eq_true_iff, ho']
      omega
    rw [e2]
    simp

/-- Witness for shuffle_traversal: the first two draws over a two-question
catalog emit each index exactly once. -/
theorem shuffle_traversal_witness :
    ((1 : Nat) ≤ 2 ∧ needsRebuild 2 [] (-1) = true ∧
      ([fun _ => 0, fun _ => 0] : List (Nat → Nat)).length = 2) ∧
    (∃ emitted : List Nat, emitted.Perm (List.range 2) ∧
       (runDraws 2 [fun _ => 0, fun _ => 0] ([], -1)).2 = emitted.map some ∧
       (∀ i, i < 2 → emitted.count i = 1) ∧
       (∀ x ∈ (runDraws 2 [fun _ => 0, fun _ => 0] ([], -1)).2,
         ∃ i, x = some i ∧ i < 2)) :=
  ⟨⟨by decide, by decide, rfl⟩,
   (shuffle_traversal 2 (by decide) [] (-1) (by decide)
     [fun _ => 0, fun _ => 0] rfl).1⟩

/-- C7 counterexample: with a catalog of size 2, the three draws governed
by these random choices emit indices 1, 0, 0 — so the window made of the
second and third consecutive selections repeats index 0 before index 1 is
emitted again, refuting the claim for windows not aligned to a
regeneration. -/
theorem shuffle_window_counterexample :
    (runDraws 2 [fun _ => 0, fun _ => 0, fun _ => 1] ([], -1)).2 =
      [some 1, some 0, some 0] ∧
    ((runDraws 2 [fun _ => 0, fun _ => 0, fun _ => 1] ([], -1)).2.drop
        1).count (some 0) = 2 ∧
    ((runDraws 2 [fun _ => 0, fun _ => 0, fun _ => 1] ([], -1)).2.drop
        1).count (some 1) = 0 := by
  decide

theorem joinTail_fields (g : GameState) (sid fn : String) :
    (joinTail g sid fn).1.questions = g.questions ∧
    (joinTail g sid fn).1.currentPhase = g.currentPhase ∧
    (joinTail g sid fn).1.currentQuestion = g.currentQuestion ∧
    (joinTail g sid fn).1.shuffledOrder = g.shuffledOrder ∧
    (joinTail g sid fn).1.shuffledCursor = g.shuffledCursor ∧
    (joinTail g sid fn).1.nextTimer = g.nextTimer ∧
    (joinTail g sid fn).1.submissionsThisRound = g.submissionsThisRound := by
  rcases hp : mGet g.playerIdToPlayer sid with _ | p
  · by_cases ht : mHas g.playerNameToId
        (if fn = "" then sanitizeName "Player" else fn)
    · simp [joinTail, finishJoin, hp, ht]
    · simp [joinTail, finishJoin, hp, ht]
  · simp [joinTail, finishJoin, hp]

theorem joinHandler_fields (g : GameState) (live : List String)
    (sid raw : String) :
    (joinHandler g live sid raw).1.questions = g.questions ∧
    (joinHandler g live sid raw).1.currentPhase = g.currentPhase ∧
    (joinHandler g live sid raw).1.currentQuestion = g.currentQuestion ∧
    (joinHandler g live sid raw).1.shuffledOrder = g.shuffledOrder ∧
    (joinHandler g live sid raw).1.shuffledCursor = g.shuffledCursor ∧
    (joinHandler g live sid raw).1.nextTimer = g.nextTimer ∧
    (joinHandler g live sid raw).1.submissionsThisRound =
      g.submissionsThisRound := by
  have hne' := sanitizeName_ne_empty raw
  rcases hn : mGet g.playerNameToId (sanitizeName raw) with _ | eid
  · simp only [joinHandler, if_neg hne', hn]
    exact joinTail_fields g sid _
  · rcases he : mGet g.playerIdToPlayer eid with _ | ex
    · simp only [joinHandler, if_neg hne', hn, he]
      exact joinTail_fields g sid _
    · by_cases hlive : eid ∈ live
      · simp only [joinHandler, if_neg hne', hn, he, if_pos hlive]
        refine ⟨?_, ?_, ?_, ?_, ?_, ?_, ?_⟩ <;> trivial
      · simp only [joinHandler, if_neg hne', hn, he, if_neg hlive]
        exact joinTail_fields _ sid _

theorem answerHandler_fields (g : GameState) (pid qid : String)
    (c : Option Int) (t : Nat) :
    (answerHandler g pid qid c t).1.questions = g.questions ∧
    (answerHandler g pid qid c t).1.currentPhase = g.currentPhase ∧
    (answerHandler g pid qid c t).1.currentQuestion = g.currentQuestion ∧
    (answerHandler g pid qid c t).1.shuffledOrder = g.shuffledOrder ∧
    (answerHandler g pid qid c t).1.shuffledCursor = g.shuffledCursor ∧
    (answerHandler g pid qid c t).1.nextTimer = g.nextTimer ∧
    (answerHandler g pid qid c t).1.playerNameToId = g.playerNameToId := by
  unfold answerHandler
  repeat' split
  all_goals exact ⟨rfl, rfl, rfl, rfl, rfl, rfl, rfl⟩

theorem disconnectHandler_fields (g : GameState) (sid : String) :
    (disconnectHandler g sid).questions = g.questions ∧
    (disconnectHandler g sid).currentPhase = g.currentPhase ∧
    (disconnectHandler g sid).currentQuestion = g.currentQuestion ∧
    (disconnectHandler g sid).shuffledOrder = g.shuffledOrder ∧
    (disconnectHandler g sid).shuffledCursor = g.shuffledCursor ∧
    (disconnectHandler g sid).nextTimer = g.nextTimer ∧
    (disconnectHandler g sid).playerNameToId = g.playerNameToId := by
  unfold disconnectHandler
  repeat' split
  all_goals exact ⟨rfl, rfl, rfl, rfl, rfl, rfl, rfl⟩

theorem startNextQuestion_maps (g : GameState) (rand : Nat → Nat) (t : Nat) :
    (startNextQuestion g rand t).playerIdToPlayer = g.playerIdToPlayer ∧
    (startNextQuestion g rand t).playerNameToId = g.playerNameToId ∧
    (startNextQuestion g rand t).questions = g.questions := by
  unfold startNextQuestion
  split
  · exact ⟨rfl, rfl, rfl⟩
  · exact ⟨rfl, rfl, rfl⟩

theorem drawStep_good (n : Nat) (hn : 1 ≤ n) (r : Nat → Nat) (o : List Nat)
    (c : Int)
    (hinv : (o = [] ∧ c = -1) ∨
      (o.Perm (List.range n) ∧ 0 ≤ c ∧ c < (o.length : Int))) :
    (drawStep n r o c).1.Perm (List.range n) ∧
    0 ≤ (drawStep n r o c).2 ∧
    (drawStep n r o c).2 < ((drawStep n r o c).1.length : Int) ∧
    (∃ v, listGetInt (drawStep n r o c).1 (drawStep n r o c).2 = some v ∧
       v < n) := by
  have hrebuild : needsRebuild n o c = true →
      (drawStep n r o c).1.Perm (List.range n) ∧
      0 ≤ (drawStep n r o c).2 ∧
      (drawStep n r o c).2 < ((drawStep n r o c).1.length : Int) ∧
      (∃ v, listGetInt (drawStep n r o c).1 (drawStep n r o c).2 = some v ∧
         v < n) := by
    intro hnr
    have hstep : drawStep n r o c = (buildShuffledOrder n r, 0) := by
      simp [drawStep, hnr]
    rw [hstep]
    have hlenb := buildShuffledOrder_length n r
    have hpermb := buildShuffledOrder_perm n r
    have h0 : 0 < (buildShuffledOrder n r).length := by omega
    refine ⟨hpermb, le_refl 0, by show (0 : Int) < _; rw [hlenb]; omega, ?_⟩
    refine ⟨(buildShuffledOrder n r)[0], ?_, ?_⟩
    · show listGetInt (buildShuffledOrder n r) ((0 : Nat) : Int) = _
      rw [listGetInt_natCast, List.get?_eq_getElem?, List.getElem?_eq_getElem h0]
    · have hmem : (buildShuffledOrder n r)[0] ∈ buildShuffledOrder n r :=
        List.getElem_mem h0
      exact List.mem_range.mp (hpermb.mem_iff.mp hmem)
  by_cases hnr : needsRebuild n o c = true
  · exact hrebuild hnr
  · rw [Bool.not_eq_true] at hnr
    have hparts : o.length = n ∧ c < (o.length : Int) - 1 := by
      unfold needsRebuild at hnr
      rcases Bool.or_eq_false_iff.mp hnr with ⟨h1, h2⟩
      rw [decide_eq_false_iff_not] at h1 h2
      exact ⟨not_ne_iff.mp h1, by omega⟩
    rcases hinv with ⟨ho, _⟩ | ⟨hperm, hc0, _⟩
    · rw [ho] at hparts
      simp at hparts
      omega
    · have hstep : drawStep n r o c = (o, c + 1) := by
        simp [drawStep, hnr]
      rw [hstep]
      have hc1 : 0 ≤ c + 1 := by omega
      have hlt : c + 1 < (o.length : Int) := by omega
      have htn : (c + 1).toNat < o.length := by omega
      refine ⟨hperm, hc1, hlt, ⟨o[(c+1).toNat], ?_, ?_⟩⟩
      · unfold listGetInt
        rw [if_neg (by omega), List.get?_eq_getElem?,
          List.getElem?_eq_getElem htn]
      · have hmem : o[(c+1).toNat] ∈ o := List.getElem_mem htn
        exact List.mem_range.mp (hperm.mem_iff.mp hmem)

theorem mHas_false {α : Type} (m : List (String × α)) (k : String)
    (h : mHas m k = false) : mGet m k = none := by
  rcases hm : mGet m k with _ | v
  · rfl
  · unfold mHas at h
    rw [hm] at h
    simp at h

theorem joinTail_inv (g : GameState) (live : List String) (sid fn : String)
    (hI1 : ∀ id p, mGet g.playerIdToPlayer id = some p →
       mGet g.playerNameToId p.name = some id)
    (hI2 : ∀ id p, mGet g.playerIdToPlayer id = some p → p.connected = true →
       id ∈ live)
    (hsid : sid ∈ live) :
    (∀ id p, mGet (joinTail g sid fn).1.playerIdToPlayer id = some p →
       mGet (joinTail g sid fn).1.playerNameToId p.name = some id) ∧
    (∀ id p, mGet (joinTail g sid fn).1.playerIdToPlayer id = some p →
       p.connected = true → id ∈ live) := by
  rcases hp : mGet g.playerIdToPlayer sid with _ | p0
  · by_cases ht : mHas g.playerNameToId
        (if fn = "" then sanitizeName "Player" else fn) = true
    · simp only [joinTail, hp, ht, if_true]
      exact ⟨hI1, hI2⟩
    · rw [Bool.not_eq_true] at ht
      have hnone := mHas_false _ _ ht
      simp only [joinTail, hp, ht, Bool.false_eq_true, if_false, finishJoin,
        stampLock]
      constructor
      · intro id p h
        by_cases hid : id = sid
        · subst hid
          rw [mGet_mSet_self] at h
          have he := Option.some.inj h
          subst he
          exact mGet_mSet_self _ _ _
        · rw [mGet_mSet_ne _ _ _ _ hid] at h
          have h1 := hI1 id p h
          by_cases hnm : p.name = (if fn = "" then sanitizeName "Player" else fn)
          · rw [hnm, hnone] at h1
            cases h1
          · rw [mGet_mSet_ne _ _ _ _ hnm]
            exact h1
      · intro id p h hc
        by_cases hid : id = sid
        · subst hid
          exact hsid
        · rw [mGet_mSet_ne _ _ _ _ hid] at h
          exact hI2 id p h hc
  · simp only [joinTail, hp, finishJoin, stampLock]
    constructor
    · intro id p h
      by_cases hid : id = sid
      · subst hid
        rw [mGet_mSet_self] at h
        have he := Option.some.inj h
        subst he
        exact hI1 _ p0 hp
      · rw [mGet_mSet_ne _ _ _ _ hid] at h
        exact hI1 id p h
    · intro id p h hc
      by_cases hid : id = sid
      · subst hid
        exact hsid
      · rw [mGet_mSet_ne _ _ _ _ hid] at h
        exact hI2 id p h hc

theorem joinHandler_inv (g : GameState) (live : List String) (sid raw : String)
    (hI1 : ∀ id p, mGet g.playerIdToPlayer id = some p →
       mGet g.playerNameToId p.name = some id)
    (hI2 : ∀ id p, mGet g.playerIdToPlayer id = some p → p.connected = true →
       id ∈ live)
    (hsid : sid ∈ live) :
    (∀ id p, mGet (joinHandler g live sid raw).1.playerIdToPlayer id = some p →
       mGet (joinHandler g live sid raw).1.playerNameToId p.name = some id) ∧
    (∀ id p, mGet (joinHandler g live sid raw).1.playerIdToPlayer id = some p →
       p.connected = true → id ∈ live) := by
  have hne' := sanitizeName_ne_empty raw
  rcases hn : mGet g.playerNameToId (sanitizeName raw) with _ | eid
  · simp only [joinHandler, if_neg hne', hn]
    exact joinTail_inv g live sid _ hI1 hI2 hsid
  · rcases he : mGet g.playerIdToPlayer eid with _ | ex
    · simp only [joinHandler, if_neg hne', hn, he]
      exact joinTail_inv g live sid _ hI1 hI2 hsid
    · by_cases hlive : eid ∈ live
      · simp only [joinHandler, if_neg hne', hn, he, if_pos hlive]
        exact ⟨hI1, hI2⟩
      · simp only [joinHandler, if_neg hne', hn, he, if_neg hlive]
        have hI1' : ∀ id p,
            mGet (mSet (mDel g.playerIdToPlayer eid) sid
              { id := sid, name := sanitizeName raw, score := ex.score,
                connected := true, lockedUntilQuestionId := none,
                lastAnswer := none }) id = some p →
            mGet (mSet g.playerNameToId (sanitizeName raw) sid) p.name =
              some id := by
          intro id p h
          by_cases hid : id = sid
          · subst hid
            rw [mGet_mSet_self] at h
            have he2 := Option.some.inj h
            subst he2
            exact mGet_mSet_self _ _ _
          · rw [mGet_mSet_ne _ _ _ _ hid] at h
            by_cases hie : id = eid
            · subst hie
              rw [mGet_mDel_self] at h
              cases h
            · rw [mGet_mDel_ne _ _ _ hie] at h
              have h1 := hI1 id p h
              by_cases hnm : p.name = sanitizeName raw
              · rw [hnm, hn] at h1
                exact absurd (Option.some.inj h1).symm hie
              · rw [mGet_mSet_ne _ _ _ _ hnm]
                exact h1
        have hI2' : ∀ id p,
            mGet (mSet (mDel g.playerIdToPlayer eid) sid
              { id := sid, name := sanitizeName raw, score := ex.score,
                connected := true, lockedUntilQuestionId := none,
                lastAnswer := none }) id = some p →
            p.connected = true → id ∈ live := by
          intro id p h hc
          by_cases hid : id = sid
          · subst hid
            exact hsid
          · rw [mGet_mSet_ne _ _ _ _ hid] at h
            by_cases hie : id = eid
            · subst hie
              rw [mGet_mDel_self] at h
              cases h
            · rw [mGet_mDel_ne _ _ _ hie] at h
              exact hI2 id p h hc
        exact joinTail_inv _ live sid _ hI1' hI2' hsid

theorem answerHandler_cases (g : GameState) (pid qid : String)
    (c : Option Int) (t : Nat) :
    (answerHandler g pid qid c t).1 = g ∨
    ∃ q player,
      g.currentQuestion = some q ∧
      mGet g.playerIdToPlayer pid = some player ∧
      (answerHandler g pid qid c t).1 =
        { g with
            playerIdToPlayer := mSet g.playerIdToPlayer pid
              { player with
                  score := if isCorrectChoice c q then
                      player.score + (10 * (connectedCount g : Int) -
                        10 * (correctSoFar g : Int))
                    else player.score,
                  lastAnswer := some
                    { questionId := qid, correct := isCorrectChoice c q,
                      pointsAwarded := if isCorrectChoice c q then
                          10 * (connectedCount g : Int) -
                            10 * (correctSoFar g : Int)
                        else 0 } },
            submissionsThisRound := mSet g.submissionsThisRound pid
              { choiceIndex := c, correct := isCorrectChoice c q,
                points := if isCorrectChoice c q then
                    10 * (connectedCount g : Int) -
                      10 * (correctSoFar g : Int)
                  else 0,
                answeredAt := t } } := by
  by_cases hphase : g.currentPhase ≠ Phase.question
  · left
    simp [answerHandler, if_pos hphase]
  · rcases hq : g.currentQuestion with _ | q
    · left
      simp [answerHandler, if_neg hphase, hq]
    · by_cases hqid : qid ≠ q.id
      · left
        simp [answerHandler, if_neg hphase, hq, if_pos hqid]
      · by_cases hdup : mHas g.submissionsThisRound pid = true
        · left
          simp [answerHandler, if_neg hphase, hq, if_neg hqid, hdup]
        · rw [Bool.not_eq_true] at hdup
          rcases hp : mGet g.playerIdToPlayer pid with _ | player
          · left
            simp [answerHandler, if_neg hphase, hq, if_neg hqid, hdup, hp]
          · by_cases hlock : lockActive player q = true
            · left
              simp [answerHandler, if_neg hphase, hq, if_neg hqid, hdup, hp,
                hlock]
            · rw [Bool.not_eq_true] at hlock
              right
              refine ⟨q, player, rfl, rfl, ?_⟩
              by_cases hc : isCorrectChoice c q = true
              · simp [answerHandler, if_neg hphase, hq, if_neg hqid, hdup,
                  hp, hlock, hc]
              · rw [Bool.not_eq_true] at hc
                simp [answerHandler, if_neg hphase, hq, if_neg hqid, hdup,
                  hp, hlock, hc]

theorem answerHandler_inv (g : GameState) (live : List String)
    (pid qid : String) (c : Option Int) (t : Nat)
    (hI1 : ∀ id p, mGet g.playerIdToPlayer id = some p →
       mGet g.playerNameToId p.name = some id)
    (hI2 : ∀ id p, mGet g.playerIdToPlayer id = some p → p.connected = true →
       id ∈ live) :
    (∀ id p,
       mGet (answerHandler g pid qid c t).1.playerIdToPlayer id = some p →
       mGet (answerHandler g pid qid c t).1.playerNameToId p.name = some id) ∧
    (∀ id p,
       mGet (answerHandler g pid qid c t).1.playerIdToPlayer id = some p →
       p.connected = true → id ∈ live) := by
  rcases answerHandler_cases g pid qid c t with hcase | ⟨q, player, _, hp, hcase⟩
  · rw [hcase]
    exact ⟨hI1, hI2⟩
  · rw [hcase]
    constructor
    · intro id p h
      by_cases hid : id = pid
      · subst hid
        rw [mGet_mSet_self] at h
        have he := Option.some.inj h
        subst he
        exact hI1 _ player hp
      · rw [mGet_mSet_ne _ _ _ _ hid] at h
        exact hI1 id p h
    · intro id p h hc
      by_cases hid : id = pid
      · subst hid
        rw [mGet_mSet_self] at h
        have he := Option.some.inj h
        subst he
        exact hI2 _ player hp hc
      · rw [mGet_mSet_ne _ _ _ _ hid] at h
        exact hI2 id p h hc

theorem disconnectHandler_inv (g : GameState) (live : List String)
    (sid : String)
    (hI1 : ∀ id p, mGet g.playerIdToPlayer id = some p →
       mGet g.playerNameToId p.name = some id)
    (hI2 : ∀ id p, mGet g.playerIdToPlayer id = some p → p.connected = true →
       id ∈ live) :
    (∀ id p, mGet (disconnectHandler g sid).playerIdToPlayer id = some p →
       mGet (disconnectHandler g sid).playerNameToId p.name = some id) ∧
    (∀ id p, mGet (disconnectHandler g sid).playerIdToPlayer id = some p →
       p.connected = true → id ∈ live.erase sid) := by
  rcases hp : mGet g.playerIdToPlayer sid with _ | p0
  · simp only [disconnectHandler, hp]
    refine ⟨hI1, ?_⟩
    intro id p h hc
    by_cases hid : id = sid
    · subst hid
      rw [hp] at h
      cases h
    · exact (List.mem_erase_of_ne hid).mpr (hI2 id p h hc)
  · simp only [disconnectHandler, hp]
    constructor
    · intro id p h
      by_cases hid : id = sid
      · subst hid
        rw [mGet_mSet_self] at h
        have he := Option.some.inj h
        subst he
        exact hI1 _ p0 hp
      · rw [mGet_mSet_ne _ _ _ _ hid] at h
        exact hI1 id p h
    · intro id p h hc
      by_cases hid : id = sid
      · subst hid
        rw [mGet_mSet_self] at h
        have he := Option.some.inj h
        subst he
        simp at hc
      · rw [mGet_mSet_ne _ _ _ _ hid] at h
        exact (List.mem_erase_of_ne hid).mpr (hI2 id p h hc)

theorem inv_game_update (catalog : List Question) (s : SysState)
    (G : GameState)
    (hq : G.questions = s.game.questions)
    (hI1' : ∀ id p, mGet G.playerIdToPlayer id = some p →
       mGet G.playerNameToId p.name = some id)
    (hI2' : ∀ id p, mGet G.playerIdToPlayer id = some p →
       p.connected = true → id ∈ s.live)
    (hph : G.currentPhase = s.game.currentPhase)
    (hcq : G.currentQuestion = s.game.currentQuestion)
    (hor : G.shuffledOrder = s.game.shuffledOrder)
    (hcu : G.shuffledCursor = s.game.shuffledCursor)
    (hti : G.nextTimer = s.game.nextTimer)
    (hInv : Inv catalog s) :
    Inv catalog { s with game := G } := by
  obtain ⟨hcat, _, _, hQ, hSh, hE⟩ := hInv
  refine ⟨?_, hI1', hI2', ?_, ?_, ?_⟩
  · show G.questions = catalog
    rw [hq]
    exact hcat
  · show G.currentPhase = .question → G.currentQuestion.isSome
    rw [hph, hcq]
    exact hQ
  · show (G.shuffledOrder = [] ∧ G.shuffledCursor = -1) ∨ _
    rw [hor, hcu]
    exact hSh
  · intro hemp
    obtain ⟨h1, h2⟩ := hE hemp
    refine ⟨?_, ?_⟩
    · show G.currentPhase = .idle
      rw [hph]
      exact h1
    · show G.nextTimer = some .start ∨ G.nextTimer = none
      rw [hti]
      exact h2

theorem inv_step (catalog : List Question) (s : SysState) (e : Event)
    (h : Inv catalog s) : Inv catalog (stepE s e).1 := by
  obtain ⟨hcat, hI1, hI2, hQ, hSh, hE⟩ := h
  cases e with
  | connect sid =>
    by_cases hl : sid ∈ s.live
    · simp only [stepE, if_pos hl]
      exact ⟨hcat, hI1, hI2, hQ, hSh, hE⟩
    · simp only [stepE, if_neg hl]
      refine ⟨hcat, hI1, ?_, hQ, hSh, hE⟩
      intro id p hmem hc
      exact List.mem_cons_of_mem _ (hI2 id p hmem hc)
  | join sid raw =>
    by_cases hl : sid ∈ s.live
    · have hJ := joinHandler_inv s.game s.live sid raw hI1 hI2 hl
      have hF := joinHandler_fields s.game s.live sid raw
      have hgoal : Inv catalog
          { s with game := (joinHandler s.game s.live sid raw).1 } :=
        inv_game_update catalog s _ hF.1 hJ.1 hJ.2 hF.2.1 hF.2.2.1
          hF.2.2.2.1 hF.2.2.2.2.1 hF.2.2.2.2.2.1
          ⟨hcat, hI1, hI2, hQ, hSh, hE⟩
      rcases hres : (joinHandler s.game s.live sid raw).2 with _ | p' <;>
        simp only [stepE, if_pos hl, hres] <;> exact hgoal
    · simp only [stepE, if_neg hl]
      exact ⟨hcat, hI1, hI2, hQ, hSh, hE⟩
  | answer sid qid c t =>
    by_cases hl : sid ∈ s.live
    · have hA := answerHandler_inv s.game s.live sid qid c t hI1 hI2
      have hF := answerHandler_fields s.game sid qid c t
      have hgoal : Inv catalog
          { s with game := (answerHandler s.game sid qid c t).1 } :=
        inv_game_update catalog s _ hF.1 hA.1 hA.2 hF.2.1 hF.2.2.1
          hF.2.2.2.1 hF.2.2.2.2.1 hF.2.2.2.2.2.1
          ⟨hcat, hI1, hI2, hQ, hSh, hE⟩
      rcases hres : (answerHandler s.game sid qid c t).2 with r | ⟨cr, pts, rk⟩ <;>
        simp only [stepE, if_pos hl, hres] <;> exact hgoal
    · simp only [stepE, if_neg hl]
      exact ⟨hcat, hI1, hI2, hQ, hSh, hE⟩
  | disconnect sid =>
    by_cases hl : sid ∈ s.live
    · simp only [stepE, if_pos hl]
      have hD := disconnectHandler_inv s.game s.live sid hI1 hI2
      have hF := disconnectHandler_fields s.game sid
      refine ⟨?_, hD.1, hD.2, ?_, ?_, ?_⟩
      · show (disconnectHandler s.game sid).questions = catalog
        rw [hF.1]
        exact hcat
      · show (disconnectHandler s.game sid).currentPhase = .question →
          (disconnectHandler s.game sid).currentQuestion.isSome
        rw [hF.2.1, hF.2.2.1]
        exact hQ
      · show ((disconnectHandler s.game sid).shuffledOrder = [] ∧
            (disconnectHandler s.game sid).shuffledCursor = -1) ∨ _
        rw [hF.2.2.2.1, hF.2.2.2.2.1]
        exact hSh
      · intro hemp
        obtain ⟨h1, h2⟩ := hE hemp
        refine ⟨?_, ?_⟩
        · show (disconnectHandler s.game sid).currentPhase = .idle
          rw [hF.2.1]
          exact h1
        · show (disconnectHandler s.game sid).nextTimer = some .start ∨
            (disconnectHandler s.game sid).nextTimer = none
          rw [hF.2.2.2.2.2.1]
          exact h2
    · simp only [stepE, if_neg hl]
      exact ⟨hcat, hI1, hI2, hQ, hSh, hE⟩
  | timerFire rand t =>
    rcases ht : s.game.nextTimer with _ | k
    · simp only [stepE, ht]
      exact ⟨hcat, hI1, hI2, hQ, hSh, hE⟩
    · cases k with
      | start =>
        simp only [stepE, ht]
        by_cases hlen : s.game.questions.length = 0
        · have hg' : startNextQuestion { s.game with nextTimer := none }
              rand t =
              { s.game with nextTimer := none, currentPhase := .idle } := by
            unfold startNextQuestion
            rw [if_pos hlen]
          rw [hg']
          refine ⟨hcat, hI1, hI2, ?_, hSh, ?_⟩
          · intro hph
            cases hph
          · intro _
            exact ⟨rfl, Or.inr rfl⟩
        · have hn1 : 1 ≤ s.game.questions.length := by omega
          have hinvSh : (s.game.shuffledOrder = [] ∧
                s.game.shuffledCursor = -1) ∨
              (s.game.shuffledOrder.Perm
                 (List.range s.game.questions.length) ∧
               0 ≤ s.game.shuffledCursor ∧
               s.game.shuffledCursor <
                 (s.game.shuffledOrder.length : Int)) := by
            rw [hcat]
            exact hSh
          have hgood := drawStep_good s.game.questions.length hn1 rand
            s.game.shuffledOrder s.game.shuffledCursor hinvSh
          obtain ⟨v, hv, hvlt⟩ := hgood.2.2.2
          have hg' : startNextQuestion { s.game with nextTimer := none }
              rand t =
              { s.game with
                  shuffledOrder := (drawStep s.game.questions.length rand
                    s.game.shuffledOrder s.game.shuffledCursor).1,
                  shuffledCursor := (drawStep s.game.questions.length rand
                    s.game.shuffledOrder s.game.shuffledCursor).2,
                  currentQuestionIndex := listGetInt
                    (drawStep s.game.questions.length rand
                      s.game.shuffledOrder s.game.shuffledCursor).1
                    (drawStep s.game.questions.length rand
                      s.game.shuffledOrder s.game.shuffledCursor).2,
                  currentPhase := .question,
                  currentQuestion := (listGetInt
                    (drawStep s.game.questions.length rand
                      s.game.shuffledOrder s.game.shuffledCursor).1
                    (drawStep s.game.questions.length rand
                      s.game.shuffledOrder s.game.shuffledCursor).2).bind
                    (fun i => s.game.questions.get? i),
                  questionStartedAt := t,
                  questionEndsAt := t + QUESTION_DURATION_MS,
                  submissionsThisRound := [],
                  nextTimer := some .reveal } := by
            unfold startNextQuestion
            rw [if_neg hlen]
          rw [hg']
          refine ⟨hcat, hI1, hI2, ?_, ?_, ?_⟩
          · intro _
            show ((listGetInt _ _).bind
              (fun i => s.game.questions.get? i)).isSome
            rw [hv]
            show (s.game.questions.get? v).isSome
            rw [List.get?_eq_getElem?, List.getElem?_eq_getElem hvlt]
            rfl
          · right
            show ((drawStep s.game.questions.length rand s.game.shuffledOrder
                s.game.shuffledCursor).1.Perm (List.range catalog.length)) ∧ _
            rw [← hcat]
            exact ⟨hgood.1, hgood.2.1, hgood.2.2.1⟩
          · intro hemp
            exfalso
            apply hlen
            rw [hcat, hemp]
            rfl
      | reveal =>
        simp only [stepE, ht]
        refine ⟨hcat, hI1, hI2, ?_, hSh, ?_⟩
        · intro hph
          cases hph
        · intro hemp
          obtain ⟨_, h2⟩ := hE hemp
          rw [ht] at h2
          rcases h2 with h2 | h2 <;> cases h2
      | toIdle =>
        simp only [stepE, ht]
        refine ⟨hcat, hI1, hI2, ?_, hSh, ?_⟩
        · intro hph
          cases hph
        · intro _
          exact ⟨rfl, Or.inl rfl⟩

theorem inv_init (catalog : List Question) : Inv catalog (initState catalog) := by
  refine ⟨rfl, ?_, ?_, ?_, Or.inl ⟨rfl, rfl⟩, ?_⟩
  · intro id p hmem
    cases hmem
  · intro id p hmem
    cases hmem
  · intro hph
    cases hph
  · intro _
    exact ⟨rfl, Or.inl rfl⟩

theorem inv_run (catalog : List Question) (evs : List Event) :
    Inv catalog (runEvents catalog evs) := by
  have main : ∀ (l : List Event) (s : SysState), Inv catalog s →
      Inv catalog (l.foldl (fun s e => (stepE s e).1) s) := by
    intro l
    induction l with
    | nil =>
      intro s hs
      exact hs
    | cons e l ih =>
      intro s hs
      exact ih _ (inv_step catalog s e hs)
  exact main evs _ (inv_init catalog)

/-- C2: in every reachable state, at most one connected player holds any
given name, and a join request whose sanitized name is held by a connected
session is rejected with the name-taken error, leaving both registry maps
unchanged. -/
theorem unique_connected_names (catalog : List Question) (evs : List Event) :
    (∀ id₁ id₂ p₁ p₂,
       mGet (runEvents catalog evs).game.playerIdToPlayer id₁ = some p₁ →
       mGet (runEvents catalog evs).game.playerIdToPlayer id₂ = some p₂ →
       p₁.connected = true → p₂.connected = true → p₁.name = p₂.name →
       id₁ = id₂) ∧
    (∀ sid raw eid p, sid ∈ (runEvents catalog evs).live →
       mGet (runEvents catalog evs).game.playerIdToPlayer eid = some p →
       p.connected = true → p.name = sanitizeName raw →
       (joinHandler (runEvents catalog evs).game (runEvents catalog evs).live
          sid raw).2 = .nameTaken ∧
       (joinHandler (runEvents catalog evs).game (runEvents catalog evs).live
          sid raw).1.playerIdToPlayer =
         (runEvents catalog evs).game.playerIdToPlayer ∧
       (joinHandler (runEvents catalog evs).game (runEvents catalog evs).live
          sid raw).1.playerNameToId =
         (runEvents catalog evs).game.playerNameToId) := by
  obtain ⟨_, hI1, hI2, _, _, _⟩ := inv_run catalog evs
  constructor
  · intro id₁ id₂ p₁ p₂ h₁ h₂ _ _ hname
    have e₁ := hI1 id₁ p₁ h₁
    have e₂ := hI1 id₂ p₂ h₂
    rw [hname] at e₁
    rw [e₁] at e₂
    exact Option.some.inj e₂
  · intro sid raw eid p _ hp hconn hname
    have hn : mGet (runEvents catalog evs).game.playerNameToId
        (sanitizeName raw) = some eid := by
      rw [← hname]
      exact hI1 eid p hp
    have hlive : eid ∈ (runEvents catalog evs).live := hI2 eid p hp hconn
    have hne' := sanitizeName_ne_empty raw
    simp only [joinHandler, if_neg hne', hn, hp, if_pos hlive]
    refine ⟨?_, ?_, ?_⟩ <;> trivial

/-- Witness for unique_connected_names: after `wTrace`, the name Ann is
held by the connected session `a`, and a join from socket `b` as Ann is
rejected with the registry untouched. -/
theorem unique_connected_names_witness :
    (mGet (runEvents [] wTrace).game.playerIdToPlayer "a" = some wAnn ∧
     ("b" : String) ∈ (runEvents [] wTrace).live ∧
     wAnn.connected = true ∧ wAnn.name = sanitizeName "Ann") ∧
    ("a" : String) = "a" ∧
    ((joinHandler (runEvents [] wTrace).game (runEvents [] wTrace).live
        "b" "Ann").2 = .nameTaken ∧
     (joinHandler (runEvents [] wTrace).game (runEvents [] wTrace).live
        "b" "Ann").1.playerIdToPlayer =
       (runEvents [] wTrace).game.playerIdToPlayer ∧
     (joinHandler (runEvents [] wTrace).game (runEvents [] wTrace).live
        "b" "Ann").1.playerNameToId =
       (runEvents [] wTrace).game.playerNameToId) := by
  refine ⟨by decide, ?_, ?_⟩
  · exact (unique_connected_names [] wTrace).1 "a" "a" wAnn wAnn (by decide)
      (by decide) (by decide) (by decide) rfl
  · exact (unique_connected_names [] wTrace).2 "b" "Ann" "a" wAnn (by decide)
      (by decide) (by decide) (by decide)

/-- C8: with an empty catalog every reachable state is idle, a timer firing
leaves it idle and broadcasts only the leaderboard (the idle broadcast);
and for any catalog the question phase always has a loaded question — the
scheduler never reaches the undefined-question path. -/
theorem empty_catalog_idle (catalog : List Question) (evs : List Event) :
    (catalog = [] →
      (runEvents catalog evs).game.currentPhase = .idle ∧
      ∀ rand t,
        (stepE (runEvents catalog evs)
          (.timerFire rand t)).1.game.currentPhase = .idle ∧
        ∀ o ∈ (stepE (runEvents catalog evs) (.timerFire rand t)).2,
          o = OutEvent.leaderboardEv) ∧
    ((runEvents catalog evs).game.currentPhase = .question →
      ((runEvents catalog evs).game.currentQuestion).isSome) := by
  obtain ⟨hcat, _, _, hQ, _, hE⟩ := inv_run catalog evs
  refine ⟨?_, hQ⟩
  intro hempty
  obtain ⟨hidle, htimer⟩ := hE hempty
  refine ⟨hidle, ?_⟩
  intro rand t
  have hq0 : (runEvents catalog evs).game.questions.length = 0 := by
    rw [hcat, hempty]
    rfl
  rcases htimer with ht | ht
  · have hg' : startNextQuestion
        { (runEvents catalog evs).game with nextTimer := none } rand t =
        { (runEvents catalog evs).game with nextTimer := none, currentPhase := .idle } := by
      unfold startNextQuestion
      rw [if_pos hq0]
    simp only [stepE, ht, hg']
    refine ⟨trivial, ?_⟩
    intro o ho
    simp [broadcastOf] at ho
    exact ho
  · simp only [stepE, ht]
    refine ⟨hidle, ?_⟩
    intro o ho
    cases ho

/-- Witness for empty_catalog_idle: the empty-catalog system starts idle
and a startup-timer firing keeps it idle, broadcasting only the
leaderboard. -/
theorem empty_catalog_idle_witness :
    (runEvents [] []).game.currentPhase = .idle ∧
    (stepE (runEvents [] [])
      (.timerFire (fun _ => 0) 1)).1.game.currentPhase = .idle ∧
    (∀ o ∈ (stepE (runEvents [] []) (.timerFire (fun _ => 0) 1)).2,
      o = OutEvent.leaderboardEv) := by
  have h := (empty_catalog_idle [] []).1 rfl
  exact ⟨h.1, (h.2 (fun _ => 0) 1).1, (h.2 (fun _ => 0) 1).2⟩

theorem joinTail_score (g : GameState) (sid fn : String) (id : String)
    (p' : Player)
    (h : mGet (joinTail g sid fn).1.playerIdToPlayer id = some p') :
    p'.score = 0 ∨
    ∃ i p, mGet g.playerIdToPlayer i = some p ∧ p'.score = p.score := by
  rcases hp : mGet g.playerIdToPlayer sid with _ | p0
  · by_cases ht : mHas g.playerNameToId
        (if fn = "" then sanitizeName "Player" else fn) = true
    · simp only [joinTail, hp, ht, if_true] at h
      exact Or.inr ⟨id, p', h, rfl⟩
    · rw [Bool.not_eq_true] at ht
      simp only [joinTail, hp, ht, Bool.false_eq_true, if_false, finishJoin,
        stampLock] at h
      by_cases hid : id = sid
      · subst hid
        rw [mGet_mSet_self] at h
        have he := Option.some.inj h
        subst he
        exact Or.inl rfl
      · rw [mGet_mSet_ne _ _ _ _ hid] at h
        exact Or.inr ⟨id, p', h, rfl⟩
  · simp only [joinTail, hp, finishJoin, stampLock] at h
    by_cases hid : id = sid
    · subst hid
      rw [mGet_mSet_self] at h
      have he := Option.some.inj h
      subst he
      exact Or.inr ⟨_, p0, hp, rfl⟩
    · rw [mGet_mSet_ne _ _ _ _ hid] at h
      exact Or.inr ⟨id, p', h, rfl⟩

/-- C4 (amended): scores are integers; disconnect leaves every score as it
was, a join produces records whose score is 0 (fresh) or carried over from
an existing record (reclaim or reconnect), and an answer changes only the
submitting player's score, by exactly the awarded
`10 * connectedCount − 10 * correctSoFar` points on a correct answer —
which can be negative, so the score is not monotonically non-decreasing. -/
theorem score_change_characterization :
    (∀ g sid id p',
       mGet (disconnectHandler g sid).playerIdToPlayer id = some p' →
       ∃ p, mGet g.playerIdToPlayer id = some p ∧ p'.score = p.score) ∧
    (∀ g live sid raw id p',
       mGet (joinHandler g live sid raw).1.playerIdToPlayer id = some p' →
       p'.score = 0 ∨
       ∃ i p, mGet g.playerIdToPlayer i = some p ∧ p'.score = p.score) ∧
    (∀ g pid qid c t id p',
       mGet (answerHandler g pid qid c t).1.playerIdToPlayer id = some p' →
       ∃ p, mGet g.playerIdToPlayer id = some p ∧
         (p'.score = p.score ∨ (id = pid ∧ p'.score = p.score +
            (10 * (connectedCount g : Int) -
              10 * (correctSoFar g : Int))))) := by
  refine ⟨?_, ?_, ?_⟩
  · intro g sid id p' h
    rcases hp : mGet g.playerIdToPlayer sid with _ | p0
    · simp only [disconnectHandler, hp] at h
      exact ⟨p', h, rfl⟩
    · simp only [disconnectHandler, hp] at h
      by_cases hid : id = sid
      · subst hid
        rw [mGet_mSet_self] at h
        have he := Option.some.inj h
        subst he
        exact ⟨p0, hp, rfl⟩
      · rw [mGet_mSet_ne _ _ _ _ hid] at h
        exact ⟨p', h, rfl⟩
  · intro g live sid raw id p' h
    have hne' := sanitizeName_ne_empty raw
    rcases hn : mGet g.playerNameToId (sanitizeName raw) with _ | eid
    · simp only [joinHandler, if_neg hne', hn] at h
      exact joinTail_score g sid _ id p' h
    · rcases he : mGet g.playerIdToPlayer eid with _ | ex
      · simp only [joinHandler, if_neg hne', hn, he] at h
        exact joinTail_score g sid _ id p' h
      · by_cases hlive : eid ∈ live
        · simp only [joinHandler, if_neg hne', hn, he, if_pos hlive] at h
          exact Or.inr ⟨id, p', h, rfl⟩
        · simp only [joinHandler, if_neg hne', hn, he, if_neg hlive] at h
          rcases joinTail_score _ sid _ id p' h with h0 | ⟨i, p, hip, hsc⟩
          · exact Or.inl h0
          · rcases mGet_mSet_mDel_cases _ _ _ _ _ _ hip with hR | hgi
            · subst hR
              exact Or.inr ⟨eid, ex, he, hsc⟩
            · exact Or.inr ⟨i, p, hgi, hsc⟩
  · intro g pid qid c t id p' h
    rcases answerHandler_cases g pid qid c t with hcase |
      ⟨q, player, _, hp, hcase⟩
    · rw [hcase] at h
      exact ⟨p', h, Or.inl rfl⟩
    · rw [hcase] at h
      by_cases hid : id = pid
      · subst hid
        rw [mGet_mSet_self] at h
        have he2 := Option.some.inj h
        subst he2
        refine ⟨player, hp, ?_⟩
        by_cases hc : isCorrectChoice c q = true
        · right
          refine ⟨rfl, ?_⟩
          show (if isCorrectChoice c q then player.score +
              (10 * (connectedCount g : Int) - 10 * (correctSoFar g : Int))
            else player.score) = _
          rw [if_pos hc]
        · left
          show (if isCorrectChoice c q then player.score +
              (10 * (connectedCount g : Int) - 10 * (correctSoFar g : Int))
            else player.score) = player.score
          rw [if_neg hc]
      · rw [mGet_mSet_ne _ _ _ _ hid] at h
        exact ⟨p', h, Or.inl rfl⟩

/-- Witness for score_change_characterization: concrete disconnect, join
and answer steps on `exG1`. -/
theorem score_change_characterization_witness :
    (mGet (disconnectHandler exG1 "a").playerIdToPlayer "a" =
       some { exPlayerA with connected := false } ∧
     ∃ p, mGet exG1.playerIdToPlayer "a" = some p ∧
       ({ exPlayerA with connected := false } : Player).score = p.score) ∧
    (mGet (joinHandler exG1 ["b"] "b" "Bob").1.playerIdToPlayer "b" =
       some wBob ∧
     (wBob.score = 0 ∨
      ∃ i p, mGet exG1.playerIdToPlayer i = some p ∧ wBob.score = p.score)) ∧
    (mGet (answerHandler exG1 "a" "q1" (some 0) 3).1.playerIdToPlayer "a" =
       some wAnnScored ∧
     ∃ p, mGet exG1.playerIdToPlayer "a" = some p ∧
       (wAnnScored.score = p.score ∨ (("a" : String) = "a" ∧
         wAnnScored.score = p.score + (10 * (connectedCount exG1 : Int) -
           10 * (correctSoFar exG1 : Int))))) := by
  refine ⟨⟨by decide, ?_⟩, ⟨by decide, ?_⟩, ⟨by decide, ?_⟩⟩
  · exact score_change_characterization.1 exG1 "a" "a" _ (by decide)
  · exact score_change_characterization.2.1 exG1 ["b"] "b" "Bob" "b" wBob
      (by decide)
  · exact score_change_characterization.2.2 exG1 "a" "q1" (some 0) 3 "a" _
      (by decide)

end Trivia
